import Mathlib

/-
Verification of the configuration / rendering pipeline of the
`cinder-volume` snap (`src/cinder_volume/`).

The development shallowly embeds the pieces of the program the claims
speak about:

* `Tmpl`, `normalizeRendered`, `processTemplate`, `runTemplates`,
  `templateMethod` — the template renderer
  (`cinder_volume.py`: `_process_template`, `template`);
* `toSnake`, `toKebab`, the raw-options lookup — the naming boundary of
  the configuration schema (`configuration.py`: `to_kebab`,
  `ParentConfig`, and the pydantic-v2 alias semantics it relies on);
* `validate_unique_backend_names` — the cross-backend validator
  (`configuration.py`: `Configuration.validate_unique_backend_names`);
* `genericBackendContexts` — the backend registry
  (`cinder_volume.py`: `GenericCinderVolume.backend_contexts`,
  `context.py`: `CinderBackendContexts.__init__`);
* `cephFullContext` / `cephCinderContext`, `hitachiContext`,
  `pureContext`, `dellscContext` — the backend context providers
  (`context.py`);
* `startServices` — service reconciliation
  (`cinder_volume.py`: `start_services`, `services.py`).

Python dictionaries are embedded as association lists with
insertion-order semantics (first occurrence wins on lookup, in-place
update on re-insertion), python values as the inductive `PVal`, the
file system as an association list from destination paths to file
contents, and the string hash used for change detection as the content
itself (a content fingerprint, injective in the model).
-/

namespace CinderVolumeSnap

/-- Python scalar values as they occur in `model_dump()` output and in
render contexts: strings, booleans, integers and `None`. -/
inductive PVal where
  | vStr (s : String)
  | vBool (b : Bool)
  | vInt (n : Int)
  | vNone
  deriving DecidableEq, Repr

/-- A python `dict` with string keys, embedded as an association list in
insertion order. -/
abbrev Dict := List (String × PVal)

/-- Dictionary lookup: the first entry with the given key. -/
def dictGet : Dict → String → Option PVal
  | [], _ => none
  | (k, v) :: rest, key => if k = key then some v else dictGet rest key

/-- Python `d[key] = v`: replace the value in place if the key exists,
append otherwise (insertion-order semantics of python dicts). -/
def dictSet : Dict → String → PVal → Dict
  | [], key, v => [(key, v)]
  | (k, w) :: rest, key, v =>
    if k = key then (k, v) :: rest else (k, w) :: dictSet rest key v

/-- Python `d.update(other)` / `{**d, **other}`: fold `dictSet` over the
entries of `other`. -/
def dictUpdate (d : Dict) : Dict → Dict
  | [] => d
  | (k, v) :: rest => dictUpdate (dictSet d k v) rest

/-- Python `str.lower()` on the ASCII protocol tokens, implemented on
the character list so it evaluates by kernel reduction. -/
def strLower (s : String) : String := ⟨s.data.map Char.toLower⟩

/-- Python `d.get("protocol", dflt).lower()` on a settings bag whose
schema guarantees the `protocol` value, when present, is a string. -/
def cfgProtocol (cfg : Dict) (dflt : String) : String :=
  strLower
    (match dictGet cfg "protocol" with
     | some (.vStr s) => s
     | _ => dflt)

theorem dictGet_dictSet_self (d : Dict) (k : String) (v : PVal) :
    dictGet (dictSet d k v) k = some v := by
  induction d with
  | nil => simp [dictSet, dictGet]
  | cons p rest ih =>
    obtain ⟨k', w⟩ := p
    by_cases h : k' = k <;> simp [dictSet, dictGet, h, ih]

theorem dictGet_dictSet_ne (d : Dict) (k q : String) (v : PVal) (h : k ≠ q) :
    dictGet (dictSet d k v) q = dictGet d q := by
  induction d with
  | nil => simp [dictSet, dictGet, h]
  | cons p rest ih =>
    obtain ⟨k', w⟩ := p
    by_cases h' : k' = k
    · subst h'
      simp [dictSet, dictGet, h]
    · simp [dictSet, dictGet, h', ih]

theorem dictGet_dictUpdate_of_none (d rhs : Dict) (k : String)
    (h : dictGet rhs k = none) : dictGet (dictUpdate d rhs) k = dictGet d k := by
  induction rhs generalizing d with
  | nil => rfl
  | cons p rest ih =>
    obtain ⟨k', v⟩ := p
    by_cases hk : k' = k
    · subst hk
      simp [dictGet] at h
    · simp only [dictGet, hk, if_false] at h
      simp only [dictUpdate]
      rw [ih _ h, dictGet_dictSet_ne _ _ _ _ hk]

theorem dictGet_eq_none_of_not_mem (d : Dict) (k : String)
    (h : k ∉ d.map Prod.fst) : dictGet d k = none := by
  induction d with
  | nil => rfl
  | cons p rest ih =>
    obtain ⟨k', v⟩ := p
    simp only [List.map_cons, List.mem_cons] at h
    push_neg at h
    have hne : k' ≠ k := fun hEq => h.1 hEq.symm
    simp only [dictGet, hne, if_false]
    exact ih h.2

theorem dictGet_dictUpdate_of_some (d rhs : Dict) (k : String) (v : PVal)
    (hn : (rhs.map Prod.fst).Nodup) (h : dictGet rhs k = some v) :
    dictGet (dictUpdate d rhs) k = some v := by
  induction rhs generalizing d with
  | nil => simp [dictGet] at h
  | cons p rest ih =>
    obtain ⟨k', w⟩ := p
    simp only [List.map_cons, List.nodup_cons] at hn
    by_cases hk : k' = k
    · subst hk
      simp [dictGet] at h
      subst h
      have hrest : dictGet rest k' = none :=
        dictGet_eq_none_of_not_mem rest k' hn.1
      simp only [dictUpdate]
      rw [dictGet_dictUpdate_of_none _ _ _ hrest, dictGet_dictSet_self]
    · simp only [dictGet, hk, if_false] at h
      simp only [dictUpdate]
      exact ih (dictSet d k' w) hn.2 h

theorem dictGet_filter_of_false (d : Dict) (k : String)
    (f : String × PVal → Bool) (hf : ∀ v, f (k, v) = false) :
    dictGet (d.filter f) k = none := by
  induction d with
  | nil => rfl
  | cons p rest ih =>
    obtain ⟨k', v⟩ := p
    by_cases hk : k' = k
    · subst hk
      simp [List.filter, hf v, ih]
    · cases hfv : f (k', v) <;> simp [List.filter, hfv, dictGet, hk, ih]

theorem dictGet_filter_of_true (d : Dict) (k : String) (v : PVal)
    (f : String × PVal → Bool) (hget : dictGet d k = some v)
    (hf : f (k, v) = true) : dictGet (d.filter f) k = some v := by
  induction d with
  | nil => simp [dictGet] at hget
  | cons p rest ih =>
    obtain ⟨k', w⟩ := p
    by_cases hk : k' = k
    · subst hk
      simp [dictGet] at hget
      subst hget
      simp [List.filter, hf, dictGet]
    · simp only [dictGet, hk, if_false] at hget
      cases hfv : f (k', w) <;> simp [List.filter, hfv, dictGet, hk, ih hget]

theorem dictGet_filter_of_none (d : Dict) (k : String)
    (f : String × PVal → Bool) (hget : dictGet d k = none) :
    dictGet (d.filter f) k = none := by
  induction d with
  | nil => rfl
  | cons p rest ih =>
    obtain ⟨k', v⟩ := p
    by_cases hk : k' = k
    · subst hk
      simp [dictGet] at hget
    · simp only [dictGet, hk, if_false] at hget
      cases hfv : f (k', v) <;> simp [List.filter, hfv, dictGet, hk, ih hget]

/-- Template descriptor, from `template.py` (`Template.__init__`): a
source filename, a destination directory, a file mode and an optional
distinct source-template name.  Paths are embedded as strings. -/
structure Tmpl where
  filename : String
  dest : String
  mode : Nat := 0o640
  templateName : Option String := none
  deriving DecidableEq, Repr

/-- Method `Template.template` from `template.py`: the template name or
the filename. -/
def Tmpl.template (t : Tmpl) : String := t.templateName.getD t.filename

/-- Method `Template.rel_path` from `template.py`: `dest / template()`. -/
def Tmpl.relPath (t : Tmpl) : String := t.dest ++ "/" ++ t.template

/-- Python `str.removesuffix(".j2")`, implemented on the character list
so that it evaluates by kernel reduction: drop the final three
characters when they are `.j2`. -/
def removeSuffixJ2 (s : String) : String :=
  if List.isSuffixOf ['.', 'j', '2'] s.data
  then String.mk (s.data.take (s.data.length - 3)) else s

/-- Destination file of a template in `_process_template`
(`cinder_volume.py`): `dest_dir / file_name.removesuffix(".j2")`. -/
def Tmpl.destFile (t : Tmpl) : String := t.dest ++ "/" ++ removeSuffixJ2 t.filename

/-- The file system, embedded as a map from destination paths to file
contents (an association list; `fsSet` shadows older entries). -/
abbrev FS := List (String × String)

/-- Content of the file at path `p`, if it exists. -/
def fsGet : FS → String → Option String
  | [], _ => none
  | (q, v) :: rest, p => if q = p then some v else fsGet rest p

/-- `write_text`: replace the content of the file at path `p`. -/
def fsSet (fs : FS) (p v : String) : FS := (p, v) :: fs

theorem fsGet_fsSet_self (fs : FS) (p v : String) :
    fsGet (fsSet fs p v) p = some v := by simp [fsGet, fsSet]

theorem fsGet_fsSet_ne (fs : FS) (p q v : String) (h : p ≠ q) :
    fsGet (fsSet fs p v) q = fsGet fs q := by simp [fsGet, fsSet, h]

/-- Last character of a string (python `s[-1]`), `none` when empty. -/
def lastChar (s : String) : Option Char := s.data.getLast?

/-- Trailing-newline normalization from `_process_template`
(`cinder_volume.py` lines 199-201): when the rendered text is non-empty
and its last character is not a newline, append one newline; otherwise
leave the text unchanged. -/
def normalizeRendered (s : String) : String :=
  if 0 < s.length ∧ lastChar s ≠ some '\n' then s ++ "\n" else s

/-- One step of `CinderVolume._process_template` (`cinder_volume.py`),
with the jinja rendering abstracted into the already-rendered raw text
`raw` and the string hash modeled by the content itself (an injective
content fingerprint).  Returns whether the file was written and the
resulting file system. -/
def processTemplate (fs : FS) (t : Tmpl) (raw : String) : Bool × FS :=
  let originalHash := fsGet fs t.destFile
  let rendered := normalizeRendered raw
  if originalHash = some rendered then (false, fs)
  else (true, fsSet fs t.destFile rendered)

theorem processTemplate_skip (fs : FS) (t : Tmpl) (raw : String)
    (h : fsGet fs t.destFile = some (normalizeRendered raw)) :
    processTemplate fs t raw = (false, fs) := by
  simp [processTemplate, h]

theorem processTemplate_get (fs : FS) (t : Tmpl) (raw : String) :
    fsGet (processTemplate fs t raw).2 t.destFile = some (normalizeRendered raw) := by
  by_cases h : fsGet fs t.destFile = some (normalizeRendered raw)
  · simp [processTemplate, h]
  · simp [processTemplate, h, fsGet_fsSet_self]

theorem processTemplate_get_ne (fs : FS) (t : Tmpl) (raw q : String)
    (h : t.destFile ≠ q) :
    fsGet (processTemplate fs t raw).2 q = fsGet fs q := by
  by_cases hc : fsGet fs t.destFile = some (normalizeRendered raw)
  · simp [processTemplate, hc]
  · simp [processTemplate, hc, fsGet_fsSet_ne _ _ _ _ h]

/-- The rendering loop of `CinderVolume.template` (`cinder_volume.py`):
process each template in order with `_process_template`, collecting the
templates whose destination file was written. -/
def runTemplates (fs : FS) (tpls : List Tmpl) (render : Tmpl → String) :
    List Tmpl × FS :=
  match tpls with
  | [] => ([], fs)
  | t :: rest =>
    (if (processTemplate fs t (render t)).1
     then t :: (runTemplates (processTemplate fs t (render t)).2 rest render).1
     else (runTemplates (processTemplate fs t (render t)).2 rest render).1,
     (runTemplates (processTemplate fs t (render t)).2 rest render).2)

theorem runTemplates_snd_cons (fs : FS) (t : Tmpl) (rest : List Tmpl)
    (render : Tmpl → String) :
    (runTemplates fs (t :: rest) render).2 =
      (runTemplates (processTemplate fs t (render t)).2 rest render).2 := rfl

theorem runTemplates_preserves (fs : FS) (tpls : List Tmpl)
    (render : Tmpl → String) (p : String) (h : p ∉ tpls.map Tmpl.destFile) :
    fsGet (runTemplates fs tpls render).2 p = fsGet fs p := by
  induction tpls generalizing fs with
  | nil => rfl
  | cons t rest ih =>
    simp only [List.map_cons, List.mem_cons] at h
    push_neg at h
    rw [runTemplates_snd_cons, ih _ h.2,
      processTemplate_get_ne _ _ _ _ (fun hEq => h.1 hEq.symm)]

/-- Running the same templates with the same rendered outputs a second
time writes nothing: the modified list of the second pass is empty and
the file system is untouched. -/
theorem runTemplates_second_pass (fs : FS) (tpls : List Tmpl)
    (render : Tmpl → String) (h : (tpls.map Tmpl.destFile).Nodup) :
    runTemplates (runTemplates fs tpls render).2 tpls render =
      ([], (runTemplates fs tpls render).2) := by
  induction tpls generalizing fs with
  | nil => rfl
  | cons t rest ih =>
    simp only [List.map_cons, List.nodup_cons] at h
    have hg : fsGet (runTemplates fs (t :: rest) render).2 t.destFile =
        some (normalizeRendered (render t)) := by
      rw [runTemplates_snd_cons, runTemplates_preserves _ _ _ _ h.1]
      exact processTemplate_get _ _ _
    have hskip : processTemplate (runTemplates fs (t :: rest) render).2 t
        (render t) = (false, (runTemplates fs (t :: rest) render).2) :=
      processTemplate_skip _ _ _ hg
    show (if _ then _ else _, _) = _
    rw [hskip]
    simp only [if_neg Bool.false_ne_true]
    rw [runTemplates_snd_cons fs t rest render] at hskip ⊢
    rw [ih _ h.2]

/-- Control flow of `CinderVolume.template` (`cinder_volume.py` lines
228-255): the call to `render_context` is wrapped in `try/except` and a
failure returns the empty modified list, while the subsequent call to
`backend_contexts` is outside the `try` block so its exception
propagates; on success the general templates and the backend templates
are processed in order. -/
def templateMethod {Ctx : Type} (fs : FS) (rc : Except String Ctx)
    (bc : Except String (List Tmpl)) (generalTpls : List Tmpl)
    (render : Ctx → Tmpl → String) : Except String (List Tmpl × FS) :=
  match rc with
  | .error _ => .ok ([], fs)
  | .ok ctx =>
    match bc with
    | .error e => .error e
    | .ok backendTpls =>
      .ok (runTemplates fs (generalTpls ++ backendTpls) (render ctx))

/-- Whether a string ends with exactly one newline: its last character
is a newline and the character before it, when it exists, is not. -/
def endsWithOneNewline (s : String) : Bool :=
  match s.data.reverse with
  | c :: rest => c == '\n' && !(rest.head? == some '\n')
  | [] => false

theorem endsWithOneNewline_append_newline (s : String)
    (h : lastChar s ≠ some '\n') : endsWithOneNewline (s ++ "\n") = true := by
  have hdata : (s ++ "\n").data = s.data ++ ['\n'] := String.data_append s "\n"
  have hrev : (s ++ "\n").data.reverse = '\n' :: s.data.reverse := by
    rw [hdata, List.reverse_append]
    rfl
  have hlast : (s.data.reverse.head? == some '\n') = false := by
    rw [List.head?_reverse]
    exact beq_eq_false_iff_ne.mpr h
  simp only [endsWithOneNewline, hrev, hlast]
  simp

/-- Render templates: an example render function for concrete witnesses,
returning a fixed text per template. -/
def renderById (t : Tmpl) : String := "content of " ++ t.filename

/-- Concrete template descriptors, as declared by
`CinderVolume.template_files` (`cinder_volume.py`). -/
def cinderConfTpl : Tmpl := { filename := "cinder.conf", dest := "etc/cinder" }

/-- Concrete template descriptor for `rootwrap.conf`. -/
def rootwrapConfTpl : Tmpl := { filename := "rootwrap.conf", dest := "etc/cinder" }

/-- C1: idempotent rendering.  If the normalized rendered content equals
the current content of the destination file, `_process_template`
performs no write (the file system is returned untouched) and reports
the template as unchanged; consequently running the same templates a
second time with the same rendered outputs (distinct destination files,
as in the program) writes nothing and returns an empty changed set. -/
theorem c1_idempotent_rendering :
    (∀ (fs : FS) (t : Tmpl) (raw : String),
        fsGet fs (Tmpl.destFile t) = some (normalizeRendered raw) →
        processTemplate fs t raw = (false, fs)) ∧
    (∀ (fs : FS) (tpls : List Tmpl) (render : Tmpl → String),
        (tpls.map Tmpl.destFile).Nodup →
        runTemplates (runTemplates fs tpls render).2 tpls render =
          ([], (runTemplates fs tpls render).2)) :=
  ⟨processTemplate_skip, runTemplates_second_pass⟩

/-- Witness for C1 at concrete inputs: a file system already holding the
normalized rendered text is not rewritten, and a second rendering pass
over the two core templates changes nothing. -/
theorem c1_idempotent_rendering_witness :
    (fsGet [("etc/cinder/cinder.conf", "x\n")] (Tmpl.destFile cinderConfTpl) =
        some (normalizeRendered "x")) ∧
    processTemplate [("etc/cinder/cinder.conf", "x\n")] cinderConfTpl "x" =
      (false, [("etc/cinder/cinder.conf", "x\n")]) ∧
    ([cinderConfTpl, rootwrapConfTpl].map Tmpl.destFile).Nodup ∧
    runTemplates
        (runTemplates [] [cinderConfTpl, rootwrapConfTpl] renderById).2
        [cinderConfTpl, rootwrapConfTpl] renderById =
      ([], (runTemplates [] [cinderConfTpl, rootwrapConfTpl] renderById).2) :=
  ⟨by decide, c1_idempotent_rendering.1 _ _ _ (by decide), by decide,
    c1_idempotent_rendering.2 _ _ _ (by decide)⟩

/-- C8 (amended): a failure raised while `render_context` assembles the
namespace from the base context providers is caught and the render step
returns the empty changed set; but a failure raised by the
backend-contexts assembly, which happens outside the `try` block,
propagates out of the render step. -/
theorem c8_render_context_failure :
    (∀ (Ctx : Type) (fs : FS) (e : String) (bc : Except String (List Tmpl))
        (g : List Tmpl) (render : Ctx → Tmpl → String),
        templateMethod fs (.error e) bc g render = .ok ([], fs)) ∧
    (∀ (Ctx : Type) (fs : FS) (c : Ctx) (e : String) (g : List Tmpl)
        (render : Ctx → Tmpl → String),
        templateMethod fs (.ok c) (.error e) g render = .error e) :=
  ⟨fun _ _ _ _ _ _ => rfl, fun _ _ _ _ _ _ => rfl⟩

/-- Counterexample to C8 as stated: when the backend-contexts provider
fails while the namespace is being assembled, the render step does not
return an empty changed set — the error propagates. -/
theorem c8_counterexample :
    @templateMethod Unit [] (.ok ()) (.error "backend context failure") []
        (fun _ _ => "") = .error "backend context failure" ∧
    (Except.error "backend context failure" :
        Except String (List Tmpl × FS)) ≠ .ok ([], []) :=
  ⟨rfl, by simp⟩

/-- C9 (amended): `_process_template` appends exactly one newline when
the raw rendered text is non-empty and does not already end with a
newline — in that case the written text ends with exactly one newline —
but it leaves the text unchanged when it is empty or already ends with a
newline, so an empty rendering stays empty and extra trailing newlines
are preserved. -/
theorem c9_trailing_newline (s : String) :
    (s ≠ "" → lastChar s ≠ some '\n' →
      normalizeRendered s = s ++ "\n" ∧
        endsWithOneNewline (s ++ "\n") = true) ∧
    (s = "" ∨ lastChar s = some '\n' → normalizeRendered s = s) := by
  constructor
  · intro hne hlast
    have hpos : 0 < s.length := by
      cases s with
      | mk l =>
        have : l ≠ [] := by intro hl; exact hne (by simp [hl])
        simpa [String.length] using List.length_pos.mpr this
    constructor
    · simp [normalizeRendered, hpos, hlast]
    · exact endsWithOneNewline_append_newline s hlast
  · rintro (h | h)
    · subst h; rfl
    · simp [normalizeRendered, h]

/-- Witness for C9 at concrete inputs: rendering `"abc"` writes
`"abc\n"`, which ends with exactly one newline. -/
theorem c9_trailing_newline_witness :
    ("abc" : String) ≠ "" ∧ lastChar "abc" ≠ some '\n' ∧
    normalizeRendered "abc" = "abc\n" ∧
    endsWithOneNewline ("abc" ++ "\n") = true ∧
    lastChar "xy\n" = some '\n' ∧ normalizeRendered "xy\n" = "xy\n" :=
  ⟨by decide, by decide,
    ((c9_trailing_newline "abc").1 (by decide) (by decide)).1,
    ((c9_trailing_newline "abc").1 (by decide) (by decide)).2,
    by decide, (c9_trailing_newline "xy\n").2 (Or.inr (by decide))⟩

/-- Counterexample to C9 as stated: a rendering that already ends with
two newlines is written unchanged and so does not end with exactly one
newline, and an empty rendering is written empty with no newline at
all. -/
theorem c9_counterexample :
    normalizeRendered "a\n\n" = "a\n\n" ∧
    endsWithOneNewline "a\n\n" = false ∧
    normalizeRendered "" = "" ∧ endsWithOneNewline "" = false := by
  refine ⟨?_, by decide, rfl, by decide⟩
  have : lastChar "a\n\n" = some '\n' := by decide
  simp [normalizeRendered, this]

/-- Ceph backend configuration (`configuration.py`:
`CephConfiguration`), restricted to the two fields that
`Configuration.validate_unique_backend_names` reads: the rendered
backend name and the rbd pool.  The remaining schema fields are not
consulted by the validator. -/
structure CephB where
  volume_backend_name : String
  rbd_pool : String
  deriving DecidableEq, Repr

/-- Hitachi backend configuration (`configuration.py`:
`HitachiConfiguration`), restricted to the backend name the validator
reads plus the `hitachi_pools` field the pool-uniqueness claim speaks
about (which the validator does not read). -/
structure HitachiB where
  volume_backend_name : String
  hitachi_pools : String
  deriving DecidableEq, Repr

/-- Pure backend configuration (`configuration.py`:
`PureConfiguration`), restricted to the backend name. -/
structure PureB where
  volume_backend_name : String
  deriving DecidableEq, Repr

/-- Dell Storage Center backend configuration (`configuration.py`:
`DellSCConfiguration`), restricted to the backend name. -/
structure DellSCB where
  volume_backend_name : String
  deriving DecidableEq, Repr

/-- The per-family backend maps of `Configuration` (`configuration.py`),
embedded as insertion-ordered association lists like the python dicts
produced by validation. -/
structure Configuration where
  ceph : List (String × CephB) := []
  hitachi : List (String × HitachiB) := []
  pure : List (String × PureB) := []
  dellsc : List (String × DellSCB) := []
  deriving DecidableEq, Repr

/-- One backend as visited by `validate_unique_backend_names`: its
family tag, its dict key, its rendered backend name and — for ceph
backends only — its rbd pool (the validator checks pools only for the
ceph family). -/
structure Entry where
  family : String
  key : String
  vbn : String
  cephPool : Option String
  deriving DecidableEq, Repr

/-- The iteration order of `validate_unique_backend_names`: all ceph
backends, then hitachi, then pure, then dellsc, each family in dict
insertion order. -/
def entriesOf (c : Configuration) : List Entry :=
  c.ceph.map (fun p => ⟨"ceph", p.1, p.2.volume_backend_name, some p.2.rbd_pool⟩) ++
  c.hitachi.map (fun p => ⟨"hitachi", p.1, p.2.volume_backend_name, none⟩) ++
  c.pure.map (fun p => ⟨"pure", p.1, p.2.volume_backend_name, none⟩) ++
  c.dellsc.map (fun p => ⟨"dellsc", p.1, p.2.volume_backend_name, none⟩)

/-- Error text raised for a duplicate backend name
(`configuration.py` lines 333-336). -/
def dupNameMsg (e : Entry) : String :=
  "Duplicate backend name \x27" ++ e.vbn ++ "\x27 found in " ++ e.family ++
    " backend \x27" ++ e.key ++ "\x27"

/-- Error text raised for a duplicate ceph pool
(`configuration.py` lines 342-345). -/
def dupPoolMsg (key pool : String) : String :=
  "Duplicate Ceph pool \x27" ++ pool ++ "\x27 found in backend \x27" ++ key ++ "\x27"

/-- The loop body of `validate_unique_backend_names`: visit each backend
in order, first failing on a backend name already seen (across all
families), then — for ceph backends — failing on an rbd pool already
seen; the name is recorded before the pool check, as in the source. -/
def validateGo : List Entry → List String → List String → Except String Unit
  | [], _, _ => .ok ()
  | e :: rest, names, pools =>
    if e.vbn ∈ names then .error (dupNameMsg e)
    else
      match e.cephPool with
      | some p =>
        if p ∈ pools then .error (dupPoolMsg e.key p)
        else validateGo rest (e.vbn :: names) (p :: pools)
      | none => validateGo rest (e.vbn :: names) pools

/-- `Configuration.validate_unique_backend_names` (`configuration.py`
lines 317-348), started with empty seen-name and seen-pool sets. -/
def validate_unique_backend_names (c : Configuration) : Except String Unit :=
  validateGo (entriesOf c) [] []

/-- All rendered volume-backend-names, in validator iteration order. -/
def allVbns (c : Configuration) : List String := (entriesOf c).map Entry.vbn

/-- The ceph pools collected by the validator, in iteration order. -/
def entryPools (es : List Entry) : List String := es.filterMap Entry.cephPool

/-- The rbd pools of all ceph backends, in iteration order. -/
def cephPools (c : Configuration) : List String := entryPools (entriesOf c)

theorem validateGo_ok_of_nodup (es : List Entry) (names pools : List String)
    (h1 : (names ++ es.map Entry.vbn).Nodup)
    (h2 : (pools ++ entryPools es).Nodup) :
    validateGo es names pools = .ok () := by
  induction es generalizing names pools with
  | nil => rfl
  | cons e rest ih =>
    have hperm1 : List.Perm (names ++ e.vbn :: rest.map Entry.vbn)
        (e.vbn :: (names ++ rest.map Entry.vbn)) := List.perm_middle
    have h1' : (e.vbn :: (names ++ rest.map Entry.vbn)).Nodup := by
      rw [← hperm1.nodup_iff]
      simpa using h1
    have hvn : e.vbn ∉ names := fun hm =>
      (List.nodup_cons.mp h1').1 (List.mem_append_left _ hm)
    have hnames : ((e.vbn :: names) ++ rest.map Entry.vbn).Nodup := by
      simpa using h1'
    cases hcp : e.cephPool with
    | none =>
      have h2' : (pools ++ entryPools rest).Nodup := by
        simpa [entryPools, List.filterMap_cons, hcp] using h2
      simp only [validateGo, hvn, if_false, hcp]
      exact ih _ _ hnames h2'
    | some p =>
      have h2'' : (pools ++ p :: entryPools rest).Nodup := by
        simpa [entryPools, List.filterMap_cons, hcp] using h2
      have hperm2 : List.Perm (pools ++ p :: entryPools rest)
          (p :: (pools ++ entryPools rest)) := List.perm_middle
      have h2' : (p :: (pools ++ entryPools rest)).Nodup := by
        rw [← hperm2.nodup_iff]; exact h2''
      have hpn : p ∉ pools := fun hm =>
        (List.nodup_cons.mp h2').1 (List.mem_append_left _ hm)
      have hpools : ((p :: pools) ++ entryPools rest).Nodup := by
        simpa using h2'
      simp only [validateGo, hvn, if_false, hcp, hpn]
      exact ih _ _ hnames hpools

theorem validateGo_nodup_of_ok (es : List Entry) (names pools : List String)
    (hn : names.Nodup) (hp : pools.Nodup)
    (h : validateGo es names pools = .ok ()) :
    (names ++ es.map Entry.vbn).Nodup ∧ (pools ++ entryPools es).Nodup := by
  induction es generalizing names pools with
  | nil => simpa [entryPools] using ⟨hn, hp⟩
  | cons e rest ih =>
    by_cases hvn : e.vbn ∈ names
    · simp [validateGo, hvn] at h
    · cases hcp : e.cephPool with
      | none =>
        simp only [validateGo, hvn, if_false, hcp] at h
        have := ih (e.vbn :: names) pools (List.nodup_cons.mpr ⟨hvn, hn⟩) hp h
        constructor
        · have hperm : List.Perm (names ++ e.vbn :: rest.map Entry.vbn)
              (e.vbn :: (names ++ rest.map Entry.vbn)) := List.perm_middle
          rw [List.map_cons, hperm.nodup_iff]
          simpa using this.1
        · simpa [entryPools, List.filterMap_cons, hcp] using this.2
      | some p =>
        by_cases hpn : p ∈ pools
        · simp [validateGo, hvn, hcp, hpn] at h
        · simp only [validateGo, hvn, if_false, hcp, hpn] at h
          have := ih (e.vbn :: names) (p :: pools)
            (List.nodup_cons.mpr ⟨hvn, hn⟩) (List.nodup_cons.mpr ⟨hpn, hp⟩) h
          constructor
          · have hperm : List.Perm (names ++ e.vbn :: rest.map Entry.vbn)
                (e.vbn :: (names ++ rest.map Entry.vbn)) := List.perm_middle
            rw [List.map_cons, hperm.nodup_iff]
            simpa using this.1
          · have hperm : List.Perm (pools ++ p :: entryPools rest)
                (p :: (pools ++ entryPools rest)) := List.perm_middle
            have hgoal : (pools ++ p :: entryPools rest).Nodup := by
              rw [hperm.nodup_iff]
              simpa using this.2
            simpa [entryPools, List.filterMap_cons, hcp] using hgoal

theorem validate_ok_iff (c : Configuration) :
    validate_unique_backend_names c = .ok () ↔
      (allVbns c).Nodup ∧ (cephPools c).Nodup := by
  constructor
  · intro h
    have := validateGo_nodup_of_ok (entriesOf c) [] [] List.nodup_nil
      List.nodup_nil h
    simpa [allVbns, cephPools] using this
  · rintro ⟨h1, h2⟩
    exact validateGo_ok_of_nodup _ _ _ (by simpa [allVbns] using h1)
      (by simpa [cephPools] using h2)

/-- Substring test on character lists: some index splits the haystack so
that the needle appears there. -/
def listContainsSub (hay needle : List Char) : Bool :=
  (List.range (hay.length + 1)).any
    (fun i => (hay.drop i).take needle.length == needle)

/-- Whether `needle` occurs as a contiguous substring of `hay`; this is
how "the error message names the backend name" is formalised. -/
def strContainsSub (hay needle : String) : Bool :=
  listContainsSub hay.data needle.data

theorem listContainsSub_of_decomp (pre needle post : List Char) :
    listContainsSub (pre ++ (needle ++ post)) needle = true := by
  apply List.any_eq_true.mpr
  refine ⟨pre.length, List.mem_range.mpr ?_, ?_⟩
  · simp only [List.length_append]
    omega
  · rw [List.drop_left]
    have : (needle ++ post).take needle.length = needle := List.take_left needle post
    rw [this]
    exact beq_self_eq_true needle

theorem strContainsSub_of_decomp (pre needle post : String) :
    strContainsSub (pre ++ (needle ++ post)) needle = true := by
  unfold strContainsSub
  rw [String.data_append, String.data_append]
  exact listContainsSub_of_decomp pre.data needle.data post.data

theorem strContainsSub_dupNameMsg (e : Entry) :
    strContainsSub (dupNameMsg e) e.vbn = true := by
  have hdata : (dupNameMsg e).data =
      ("Duplicate backend name \x27").data ++
        (e.vbn.data ++
          ("\x27 found in " ++ e.family ++ " backend \x27" ++ e.key ++
            "\x27").data) := by
    simp [dupNameMsg, String.data_append]
  unfold strContainsSub
  rw [hdata]
  exact listContainsSub_of_decomp _ _ _

theorem validateGo_error_name (es : List Entry) (names pools : List String)
    (hp : (pools ++ entryPools es).Nodup) (m : String)
    (h : validateGo es names pools = .error m) :
    ∃ e ∈ es, m = dupNameMsg e ∧
      2 ≤ (names ++ es.map Entry.vbn).count e.vbn := by
  induction es generalizing names pools with
  | nil => simp [validateGo] at h
  | cons e rest ih =>
    by_cases hvn : e.vbn ∈ names
    · simp only [validateGo, hvn, if_true, Except.error.injEq] at h
      refine ⟨e, List.mem_cons_self e rest, h.symm, ?_⟩
      rw [List.count_append]
      have h1 : 0 < names.count e.vbn := List.count_pos_iff.mpr hvn
      have h2 : 0 < (List.map Entry.vbn (e :: rest)).count e.vbn :=
        List.count_pos_iff.mpr (by simp)
      omega
    · cases hcp : e.cephPool with
      | some p =>
        by_cases hpn : p ∈ pools
        · exfalso
          have hdisj := (List.nodup_append.mp hp).2.2
          exact hdisj hpn (by simp [entryPools, List.filterMap_cons, hcp])
        · simp only [validateGo, hvn, if_false, hcp, hpn] at h
          have hp'' : (pools ++ p :: entryPools rest).Nodup := by
            simpa [entryPools, List.filterMap_cons, hcp] using hp
          have hperm : List.Perm (pools ++ p :: entryPools rest)
              (p :: (pools ++ entryPools rest)) := List.perm_middle
          have hp' : ((p :: pools) ++ entryPools rest).Nodup := by
            have := hperm.nodup_iff.mp hp''
            simpa using this
          obtain ⟨e', he', hm, hcount⟩ := ih (e.vbn :: names) (p :: pools) hp' h
          refine ⟨e', List.mem_cons_of_mem e he', hm, ?_⟩
          have hpermn : List.Perm ((e.vbn :: names) ++ rest.map Entry.vbn)
              (names ++ e.vbn :: rest.map Entry.vbn) := List.perm_middle.symm
          calc 2 ≤ ((e.vbn :: names) ++ rest.map Entry.vbn).count e'.vbn := hcount
            _ = (names ++ (e :: rest).map Entry.vbn).count e'.vbn := by
                rw [hpermn.count_eq]; simp
      | none =>
        simp only [validateGo, hvn, if_false, hcp] at h
        have hp' : (pools ++ entryPools rest).Nodup := by
          simpa [entryPools, List.filterMap_cons, hcp] using hp
        obtain ⟨e', he', hm, hcount⟩ := ih (e.vbn :: names) pools hp' h
        refine ⟨e', List.mem_cons_of_mem e he', hm, ?_⟩
        have hpermn : List.Perm ((e.vbn :: names) ++ rest.map Entry.vbn)
            (names ++ e.vbn :: rest.map Entry.vbn) := List.perm_middle.symm
        calc 2 ≤ ((e.vbn :: names) ++ rest.map Entry.vbn).count e'.vbn := hcount
          _ = (names ++ (e :: rest).map Entry.vbn).count e'.vbn := by
              rw [hpermn.count_eq]; simp

/-- C2 (amended): when the ceph rbd pools are pairwise distinct,
validation succeeds exactly when all rendered volume-backend-names
(across the ceph, hitachi, pure and dellsc families) are pairwise
distinct, and any validation error message names a duplicated backend
name.  (Without the pool hypothesis a duplicate ceph pool encountered
earlier in iteration order preempts the duplicate-name error and the
message names the pool instead — see the counterexample.) -/
theorem c2_duplicate_backend_name_validation (c : Configuration)
    (hp : (cephPools c).Nodup) :
    (validate_unique_backend_names c = .ok () ↔ (allVbns c).Nodup) ∧
    (∀ m, validate_unique_backend_names c = .error m →
      ∃ n, 2 ≤ (allVbns c).count n ∧ strContainsSub m n = true) := by
  constructor
  · rw [validate_ok_iff]
    exact and_iff_left hp
  · intro m hm
    obtain ⟨e, _, hmsg, hcount⟩ := validateGo_error_name (entriesOf c) [] []
      (by simpa [cephPools] using hp) m hm
    exact ⟨e.vbn, by simpa [allVbns] using hcount,
      hmsg ▸ strContainsSub_dupNameMsg e⟩

/-- Configuration with distinct backend names and distinct ceph pools:
validation succeeds. -/
def cfgDistinct : Configuration :=
  { ceph := [("cephbe", ⟨"fast", "volumes"⟩)],
    hitachi := [("hitbe", ⟨"slow", "27,28"⟩)] }

/-- Witness for C2 at a concrete configuration with pairwise distinct
names: the validator accepts it. -/
theorem c2_duplicate_backend_name_validation_witness :
    (cephPools cfgDistinct).Nodup ∧
    validate_unique_backend_names cfgDistinct = .ok () :=
  ⟨by decide,
    (c2_duplicate_backend_name_validation cfgDistinct (by decide)).1.mpr
      (by decide)⟩

/-- Configuration where a duplicated ceph pool is reached before the
duplicated backend name: ceph backends `a` and `b` share pool `p` while
ceph `a` and hitachi `c` share the backend name `x`. -/
def cfgPoolShadows : Configuration :=
  { ceph := [("a", ⟨"x", "p"⟩), ("b", ⟨"y", "p"⟩)],
    hitachi := [("c", ⟨"x", "27,28"⟩)] }

/-- Counterexample to C2 as stated: this configuration has two backends
in different families sharing the name `x`, validation fails, but the
single error raised names the duplicated ceph pool `p`, not the
duplicated backend name `x`. -/
theorem c2_counterexample :
    validate_unique_backend_names cfgPoolShadows =
      .error "Duplicate Ceph pool \x27p\x27 found in backend \x27b\x27" ∧
    strContainsSub "Duplicate Ceph pool \x27p\x27 found in backend \x27b\x27"
      "x" = false ∧
    (allVbns cfgPoolShadows).count "x" = 2 :=
  ⟨rfl, by decide, by decide⟩

/-- C5 (amended): validation succeeds exactly when the backend names are
pairwise distinct and the ceph rbd pools are pairwise distinct.  In
particular a duplicate rbd pool between two ceph backends fails
validation, equal pool identifiers in different families do not affect
validation, and — against the claim — the `hitachi_pools` values are
not checked at all. -/
theorem c5_pool_uniqueness (c : Configuration) :
    validate_unique_backend_names c = .ok () ↔
      (allVbns c).Nodup ∧ (cephPools c).Nodup :=
  validate_ok_iff c

/-- Two hitachi backends sharing the same `hitachi_pools` value. -/
def cfgHitachiDupPools : Configuration :=
  { hitachi := [("h1", ⟨"n1", "27,28"⟩), ("h2", ⟨"n2", "27,28"⟩)] }

/-- Counterexample to C5 as stated: two hitachi backends declare the
same `hitachi_pools` identifier yet validation succeeds — the validator
only checks pool uniqueness for the ceph family. -/
theorem c5_counterexample :
    cfgHitachiDupPools.hitachi.map (fun p => p.2.hitachi_pools) =
      ["27,28", "27,28"] ∧
    validate_unique_backend_names cfgHitachiDupPools = .ok () :=
  ⟨rfl, rfl⟩

/-- ASCII lower-case letter, the `[a-z]` class of the pydantic
`to_snake` regular expressions. -/
def isLowerAZ (c : Char) : Bool := 97 ≤ c.toNat && c.toNat ≤ 122

/-- ASCII upper-case letter, the `[A-Z]` class. -/
def isUpperAZ (c : Char) : Bool := 65 ≤ c.toNat && c.toNat ≤ 90

/-- ASCII digit, the `[0-9]` class. -/
def isDigit09 (c : Char) : Bool := 48 ≤ c.toNat && c.toNat ≤ 57

/-- Whether pydantic `to_snake` inserts an underscore between two
adjacent characters: between a lower-case letter and an upper-case
letter, a digit and an upper-case letter, a lower-case letter and a
digit, or inside `[A-Z]+[A-Z][a-z]` (an upper-case run followed by an
upper-case letter that starts a lower-case word).  The four sequential
regex substitutions of `pydantic.alias_generators.to_snake` are
equivalent to this single pairwise pass because in each pattern the
consumed trailing class is disjoint from the leading class. -/
def snakeBreak (c1 c2 : Char) (c3? : Option Char) : Bool :=
  (isLowerAZ c1 && isUpperAZ c2) || (isDigit09 c1 && isUpperAZ c2) ||
  (isLowerAZ c1 && isDigit09 c2) ||
  (isUpperAZ c1 && isUpperAZ c2 &&
    (match c3? with | some c3 => isLowerAZ c3 | none => false))

/-- Underscore insertion pass of `to_snake` on the character list. -/
def snakeAux : List Char → List Char
  | [] => []
  | [c] => [c]
  | c1 :: c2 :: rest =>
    if snakeBreak c1 c2 rest.head? then c1 :: '_' :: snakeAux (c2 :: rest)
    else c1 :: snakeAux (c2 :: rest)

/-- `pydantic.alias_generators.to_snake`: insert underscores at the word
boundaries and lower-case the result. -/
def to_snake (s : String) : String := ⟨(snakeAux s.data).map Char.toLower⟩

/-- The snap's own `to_kebab` (`configuration.py` lines 39-40):
`to_snake(value).replace("_", "-")`. -/
def to_kebab (s : String) : String :=
  ⟨(to_snake s).data.map (fun c => if c = '_' then '-' else c)⟩

/-- The raw options passed to `model_validate`. -/
abbrev RawOptions := List (String × String)

/-- Lookup of a raw key (first occurrence). -/
def rawLookup : RawOptions → String → Option String
  | [], _ => none
  | (k, v) :: rest, key => if k = key then some v else rawLookup rest key

/-- Field population of `ParentConfig` subclasses.  Modelled from the
pydantic-v2 semantics the source relies on: `ParentConfig` sets
`AliasGenerator(validation_alias=to_kebab)` and leaves
`populate_by_name` at its default `False`, so during validation a field
is populated only from its validation alias `to_kebab(field_name)`, not
from the field name itself. -/
def lookupField (raw : RawOptions) (fieldName : String) : Option String :=
  rawLookup raw (to_kebab fieldName)

/-- The two required string fields of `CinderConfiguration`
(`configuration.py`): the defaulted fields are irrelevant to the
spelling claim and are omitted. -/
structure CinderCfg where
  project_id : String
  user_id : String
  deriving DecidableEq, Repr

/-- Validation of `CinderConfiguration`s required fields: each is
populated from its validation alias, and a missing alias is a
`Field required` validation error. -/
def validateCinderCfg (raw : RawOptions) : Except String CinderCfg :=
  match lookupField raw "project_id", lookupField raw "user_id" with
  | some p, some u => .ok ⟨p, u⟩
  | _, _ => .error "Field required"

/-- C4 (amended): the hyphen-separated external spelling of a field is
always accepted and yields the supplied value, while the
underscore-separated internal spelling is accepted if and only if it
coincides with the hyphenated spelling (fields whose names contain no
underscore); concretely, `CinderConfiguration` accepts the hyphenated
`project-id`/`user-id` keys. -/
theorem c4_spelling_round_trip (fieldName v p u : String) :
    lookupField [(to_kebab fieldName, v)] fieldName = some v ∧
    (lookupField [(fieldName, v)] fieldName = some v ↔
      to_kebab fieldName = fieldName) ∧
    validateCinderCfg [("project-id", p), ("user-id", u)] = .ok ⟨p, u⟩ := by
  refine ⟨by simp [lookupField, rawLookup], ?_, ?_⟩
  · constructor
    · intro h
      by_cases hk : fieldName = to_kebab fieldName
      · exact hk.symm
      · simp [lookupField, rawLookup, hk] at h
    · intro h
      simp [lookupField, rawLookup, h]
  · have h1 : to_kebab "project_id" = "project-id" := by decide
    have h2 : to_kebab "user_id" = "user-id" := by decide
    simp [validateCinderCfg, lookupField, rawLookup, h1, h2]

/-- Counterexample to C4 as stated: supplying the two required
`CinderConfiguration` fields under their underscore-separated internal
spellings is rejected (the pydantic validation alias is the hyphenated
spelling and `populate_by_name` is not enabled), while the
hyphen-separated spellings are accepted. -/
theorem c4_counterexample :
    validateCinderCfg [("project-id", "p"), ("user-id", "u")] =
      .ok ⟨"p", "u"⟩ ∧
    validateCinderCfg [("project_id", "p"), ("user_id", "u")] =
      .error "Field required" ∧
    to_kebab "project_id" = "project-id" := by
  refine ⟨?_, ?_, by decide⟩ <;> rfl

/-- The kind of backend context instantiated by
`GenericCinderVolume.backend_contexts` — the source instantiates only
`CephBackendContext` and `HitachiBackendContext`. -/
inductive BackendKind where
  | cephK
  | hitachiK
  deriving DecidableEq, Repr

/-- Python `backend_ctxs[name] = ...` on the registry dict. -/
def ctxSet : List (String × BackendKind) → String → BackendKind →
    List (String × BackendKind)
  | [], key, v => [(key, v)]
  | (k, w) :: rest, key, v =>
    if k = key then (k, v) :: rest else (k, w) :: ctxSet rest key v

/-- The aggregate backend collection (`context.py`:
`CinderBackendContexts`): the ordered list of enabled backend names and
the name-to-context map. -/
structure BackendContexts where
  enabled_backends : List String
  contexts : List (String × BackendKind)
  deriving DecidableEq, Repr

/-- `CinderBackendContexts.__init__` (`context.py` lines 100-114): fail
when no backend is enabled, fail when an enabled name has no context,
otherwise hold both.  (The second failure interpolates the missing set
into the message; the model keeps the fixed prefix.) -/
def mkBackendContexts (enabled : List String)
    (ctxs : List (String × BackendKind)) : Except String BackendContexts :=
  if enabled.isEmpty then .error "At least one backend must be enabled"
  else if (enabled.filter (fun n => !((ctxs.map Prod.fst).contains n))).isEmpty
  then .ok ⟨enabled, ctxs⟩
  else .error "Context missing configuration for backends"

/-- `GenericCinderVolume.backend_contexts` (`cinder_volume.py` lines
262-288): build the registry dict from the ceph backends, then the
hitachi backends — the pure and dellsc families are not iterated in the
source — and wrap it in the aggregate collection keyed by the dict
keys. -/
def genericBackendContexts (c : Configuration) :
    Except String BackendContexts :=
  let afterCeph := c.ceph.foldl (fun acc p => ctxSet acc p.1 .cephK) []
  let afterHitachi :=
    c.hitachi.foldl (fun acc p => ctxSet acc p.1 .hitachiK) afterCeph
  mkBackendContexts (afterHitachi.map Prod.fst) afterHitachi

/-- Configuration holding a single pure backend. -/
def cfgOnlyPure : Configuration := { pure := [("p1", ⟨"purename"⟩)] }

/-- Configuration holding one ceph and one pure backend. -/
def cfgCephAndPure : Configuration :=
  { ceph := [("c1", ⟨"cephname", "volumes"⟩)], pure := [("p1", ⟨"purename"⟩)] }

/-- C3 evidence: `backend_contexts` omits the pure (and dellsc)
families.  A configuration whose only backend is a pure backend yields
no context at all (the aggregate constructor raises "At least one
backend must be enabled"), and a ceph-plus-pure configuration yields a
collection keyed by the ceph backend only, with no entry for the
configured pure backend `p1`. -/
theorem c3_backend_registry_omits_pure_dellsc :
    genericBackendContexts cfgOnlyPure =
      .error "At least one backend must be enabled" ∧
    genericBackendContexts cfgCephAndPure =
      .ok ⟨["c1"], [("c1", .cephK)]⟩ ∧
    cfgOnlyPure.pure.map Prod.fst = ["p1"] ∧
    cfgCephAndPure.pure.map Prod.fst = ["p1"] :=
  ⟨rfl, rfl, rfl, rfl⟩

/-- A service descriptor (`services.py`: `OpenStackService`): its snap
service name and its fully specified configuration files. -/
structure Service where
  name : String
  configurationFiles : List String
  deriving DecidableEq, Repr

/-- The `cinder-volume` service (`services.py` lines 88-97). -/
def cinderVolumeService : Service :=
  { name := "cinder-volume",
    configurationFiles :=
      ["etc/cinder/cinder.conf", "etc/cinder/rootwrap.conf"] }

/-- The registered service list (`services.py`: `_SERVICES`, populated
by subclass registration) — exactly the one service the module
defines. -/
def registeredServices : List Service := [cinderVolumeService]

/-- What `start_services` does to one service: restart it, start it, or
log and skip it when the supervisor has no entry for it. -/
inductive ServiceAction where
  | restart (name : String)
  | start (name : String)
  | skipped (name : String)
  deriving DecidableEq, Repr

/-- The per-service body of `CinderVolume.start_services`
(`cinder_volume.py` lines 77-92): a service missing from the snap
service map is skipped (with a warning, not an error); otherwise the
service is restarted when the modified-file set intersects the union of
its configuration files and the backend files, and started otherwise. -/
def serviceAction (snapServices : List String)
    (modifiedFiles backendFiles : List String) (s : Service) : ServiceAction :=
  if s.name ∈ snapServices then
    if modifiedFiles.any
        (fun p => s.configurationFiles.contains p || backendFiles.contains p)
    then .restart s.name
    else .start s.name
  else .skipped s.name

/-- `CinderVolume.start_services` (`cinder_volume.py` lines 65-92): the
modified and backend file sets are the `rel_path`s of the corresponding
templates, and every registered service is dispatched in order. -/
def start_services (snapServices : List String)
    (modifiedTpls backendTpls : List Tmpl) : List ServiceAction :=
  registeredServices.map
    (serviceAction snapServices (modifiedTpls.map Tmpl.relPath)
      (backendTpls.map Tmpl.relPath))

/-- C6: service reconciliation.  For every registered service present in
the supervisor map, a restart is issued iff some changed path is among
the service's configuration files or the backend template paths, and a
start is issued otherwise; a service absent from the supervisor map is
skipped without error; `start_services` dispatches exactly the
registered services in order. -/
theorem c6_service_reconciliation (snapServices : List String)
    (modifiedTpls backendTpls : List Tmpl) (s : Service)
    (_hs : s ∈ registeredServices) :
    (s.name ∈ snapServices →
      (serviceAction snapServices (modifiedTpls.map Tmpl.relPath)
          (backendTpls.map Tmpl.relPath) s = .restart s.name ↔
        ∃ p, p ∈ modifiedTpls.map Tmpl.relPath ∧
          (p ∈ s.configurationFiles ∨ p ∈ backendTpls.map Tmpl.relPath))) ∧
    (s.name ∈ snapServices →
      serviceAction snapServices (modifiedTpls.map Tmpl.relPath)
          (backendTpls.map Tmpl.relPath) s ≠ .skipped s.name) ∧
    (s.name ∉ snapServices →
      serviceAction snapServices (modifiedTpls.map Tmpl.relPath)
        (backendTpls.map Tmpl.relPath) s = .skipped s.name) ∧
    start_services snapServices modifiedTpls backendTpls =
      registeredServices.map
        (serviceAction snapServices (modifiedTpls.map Tmpl.relPath)
          (backendTpls.map Tmpl.relPath)) := by
  refine ⟨?_, ?_, ?_, rfl⟩
  · intro hmem
    simp only [serviceAction]
    rw [if_pos hmem]
    cases hany : (modifiedTpls.map Tmpl.relPath).any
        (fun p => s.configurationFiles.contains p ||
          (backendTpls.map Tmpl.relPath).contains p) with
    | true =>
      rw [if_pos rfl]
      refine ⟨fun _ => ?_, fun _ => rfl⟩
      rcases List.any_eq_true.mp hany with ⟨p, hp, hcond⟩
      exact ⟨p, hp, by simpa using hcond⟩
    | false =>
      rw [if_neg (by simp)]
      constructor
      · intro h
        exact absurd h (by simp)
      · rintro ⟨p, hp, hmem'⟩
        have hc : (modifiedTpls.map Tmpl.relPath).any
            (fun p => s.configurationFiles.contains p ||
              (backendTpls.map Tmpl.relPath).contains p) = true :=
          List.any_eq_true.mpr ⟨p, hp, by simpa using hmem'⟩
        rw [hany] at hc
        cases hc
  · intro hmem
    simp only [serviceAction]
    rw [if_pos hmem]
    cases hany : (modifiedTpls.map Tmpl.relPath).any
        (fun p => s.configurationFiles.contains p ||
          (backendTpls.map Tmpl.relPath).contains p) with
    | true => rw [if_pos rfl]; simp
    | false => rw [if_neg (by simp)]; simp
  · intro hmem
    simp [serviceAction, hmem]

/-- Witness for C6 at concrete inputs: with the supervisor knowing
`cinder-volume` and `cinder.conf` modified, the theorem applies and the
service is restarted; with nothing modified it is started; with an
unknown supervisor map the service is skipped. -/
theorem c6_service_reconciliation_witness :
    cinderVolumeService ∈ registeredServices ∧
    ("cinder-volume" ∈ ["cinder-volume"]) ∧
    (serviceAction ["cinder-volume"] ([cinderConfTpl].map Tmpl.relPath)
        ([].map Tmpl.relPath) cinderVolumeService =
          .restart "cinder-volume" ↔
      ∃ p, p ∈ [cinderConfTpl].map Tmpl.relPath ∧
        (p ∈ cinderVolumeService.configurationFiles ∨
          p ∈ ([] : List Tmpl).map Tmpl.relPath)) ∧
    ("cinder-volume" ∉ ([] : List String)) ∧
    serviceAction [] ([cinderConfTpl].map Tmpl.relPath)
      ([].map Tmpl.relPath) cinderVolumeService = .skipped "cinder-volume" :=
  ⟨by decide, by decide,
    (c6_service_reconciliation ["cinder-volume"] [cinderConfTpl] []
      cinderVolumeService (by decide)).1 (by decide),
    by decide,
    (c6_service_reconciliation [] [cinderConfTpl] []
      cinderVolumeService (by decide)).2.2.1 (by decide)⟩

/-- The RBD volume driver string (`context.py` line 161). -/
def rbdDriverStr : String := "cinder.volume.drivers.rbd.RBDDriver"

/-- The keys `CephBackendContext` strips from its summary context
(`context.py` line 135: `_hidden_keys`). -/
def cephHiddenKeys : List String :=
  ["rbd_key", "keyring", "mon_hosts", "auth", "backend_name"]

/-- `CephBackendContext.context` (`context.py` lines 159-168): start
from the volume-driver entry, update with the settings bag, set
`rbd_ceph_conf` and `keyring`, and keep only entries whose value is not
None. -/
def cephFullContext (backendName : String) (cfg : Dict) : Dict :=
  let c0 := dictUpdate [("volume_driver", PVal.vStr rbdDriverStr)] cfg
  let c1 := dictSet c0 "rbd_ceph_conf"
    (.vStr ("\x7b\x7b snap_paths.common \x7d\x7d/etc/ceph/" ++ backendName ++
      ".conf"))
  let c2 := dictSet c1 "keyring"
    (.vStr ("ceph.client." ++ backendName ++ ".keyring"))
  c2.filter (fun p => !(p.2 == PVal.vNone))

/-- `CephBackendContext.cinder_context` (`context.py` lines 144-149):
the full context with each hidden key popped. -/
def cephCinderContext (backendName : String) (cfg : Dict) : Dict :=
  (cephFullContext backendName cfg).filter
    (fun p => !(cephHiddenKeys.contains p.1))

/-- C7 (amended): the ceph summary context merged into the shared
`cinder.conf` contains none of the keys `rbd_key`, `keyring`,
`mon_hosts`, `auth`, `backend_name`, while the full context does contain
`keyring` and — whenever the settings bag carries them with non-None
values, as the schema guarantees — `rbd_key`, `mon_hosts` and `auth`.
The key `backend_name`, although listed among the hidden keys, never
occurs in the ceph full context at all (the settings bag has no such
key and the ceph provider does not add one). -/
theorem c7_ceph_summary_redaction (backendName : String) (cfg : Dict)
    (hn : (cfg.map Prod.fst).Nodup) :
    (∀ k, k ∈ cephHiddenKeys →
      dictGet (cephCinderContext backendName cfg) k = none) ∧
    dictGet (cephFullContext backendName cfg) "keyring" =
      some (.vStr ("ceph.client." ++ backendName ++ ".keyring")) ∧
    (∀ v, dictGet cfg "rbd_key" = some v → v ≠ .vNone →
      dictGet (cephFullContext backendName cfg) "rbd_key" = some v) ∧
    (∀ v, dictGet cfg "mon_hosts" = some v → v ≠ .vNone →
      dictGet (cephFullContext backendName cfg) "mon_hosts" = some v) ∧
    (∀ v, dictGet cfg "auth" = some v → v ≠ .vNone →
      dictGet (cephFullContext backendName cfg) "auth" = some v) ∧
    (dictGet cfg "backend_name" = none →
      dictGet (cephFullContext backendName cfg) "backend_name" = none) := by
  have hkeyring : dictGet (cephFullContext backendName cfg) "keyring" =
      some (.vStr ("ceph.client." ++ backendName ++ ".keyring")) := by
    apply dictGet_filter_of_true
    · exact dictGet_dictSet_self _ _ _
    · simp
  have hfull : ∀ k v, k ≠ "rbd_ceph_conf" → k ≠ "keyring" →
      dictGet cfg k = some v → v ≠ .vNone →
      dictGet (cephFullContext backendName cfg) k = some v := by
    intro k v hk1 hk2 hget hv
    apply dictGet_filter_of_true
    · rw [dictGet_dictSet_ne _ _ _ _ (fun h => hk2 h.symm),
        dictGet_dictSet_ne _ _ _ _ (fun h => hk1 h.symm)]
      exact dictGet_dictUpdate_of_some _ _ _ _ hn hget
    · simpa using hv
  refine ⟨?_, hkeyring, ?_, ?_, ?_, ?_⟩
  · intro k hk
    apply dictGet_filter_of_false
    intro v
    simp only [Bool.not_eq_true']
    simpa using hk
  · exact fun v h hv => hfull "rbd_key" v (by decide) (by decide) h hv
  · exact fun v h hv => hfull "mon_hosts" v (by decide) (by decide) h hv
  · exact fun v h hv => hfull "auth" v (by decide) (by decide) h hv
  · intro hget
    apply dictGet_filter_of_none
    rw [dictGet_dictSet_ne _ _ _ _ (by decide),
      dictGet_dictSet_ne _ _ _ _ (by decide),
      dictGet_dictUpdate_of_none _ _ _ hget]
    rfl

/-- Ceph backend configuration with all schema fields
(`configuration.py`: `CephConfiguration` and its base
`BaseBackendConfiguration`), used to build concrete `model_dump`
settings bags. -/
structure CephConfigurationFull where
  image_volume_cache_enabled : Option Bool := none
  image_volume_cache_max_size_gb : Option Int := none
  image_volume_cache_max_count : Option Int := none
  volume_dd_blocksize : Int := 4096
  volume_backend_name : String
  rbd_exclusive_cinder_pool : Bool := true
  report_discard_supported : Bool := true
  rbd_flatten_volume_from_snapshot : Bool := false
  auth : String := "cephx"
  mon_hosts : String
  rbd_pool : String
  rbd_user : String
  rbd_secret_uuid : String
  rbd_key : String
  deriving DecidableEq, Repr

/-- Python `None`-able booleans as dumped values. -/
def optBoolP : Option Bool → PVal
  | some b => .vBool b
  | none => .vNone

/-- Python `None`-able integers as dumped values. -/
def optIntP : Option Int → PVal
  | some n => .vInt n
  | none => .vNone

/-- `model_dump()` of a ceph backend configuration: all fields in
declaration order (base-class fields first, as pydantic dumps them). -/
def CephConfigurationFull.model_dump (c : CephConfigurationFull) : Dict :=
  [("image_volume_cache_enabled", optBoolP c.image_volume_cache_enabled),
   ("image_volume_cache_max_size_gb", optIntP c.image_volume_cache_max_size_gb),
   ("image_volume_cache_max_count", optIntP c.image_volume_cache_max_count),
   ("volume_dd_blocksize", .vInt c.volume_dd_blocksize),
   ("volume_backend_name", .vStr c.volume_backend_name),
   ("rbd_exclusive_cinder_pool", .vBool c.rbd_exclusive_cinder_pool),
   ("report_discard_supported", .vBool c.report_discard_supported),
   ("rbd_flatten_volume_from_snapshot",
     .vBool c.rbd_flatten_volume_from_snapshot),
   ("auth", .vStr c.auth),
   ("mon_hosts", .vStr c.mon_hosts),
   ("rbd_pool", .vStr c.rbd_pool),
   ("rbd_user", .vStr c.rbd_user),
   ("rbd_secret_uuid", .vStr c.rbd_secret_uuid),
   ("rbd_key", .vStr c.rbd_key)]

/-- A concrete ceph backend configuration. -/
def cephSample : CephConfigurationFull :=
  { volume_backend_name := "fast",
    mon_hosts := "10.0.0.1,10.0.0.2",
    rbd_pool := "volumes",
    rbd_user := "cinder",
    rbd_secret_uuid := "uuid-1",
    rbd_key := "secretkey" }

/-- Witness for C7 at a concrete ceph backend: the summary lacks
`rbd_key` and `mon_hosts` while the full context carries the secret key,
the monitor hosts and the keyring entry. -/
theorem c7_ceph_summary_redaction_witness :
    ((cephSample.model_dump).map Prod.fst).Nodup ∧
    dictGet (cephCinderContext "ceph1" cephSample.model_dump) "rbd_key" =
      none ∧
    dictGet (cephCinderContext "ceph1" cephSample.model_dump) "mon_hosts" =
      none ∧
    dictGet (cephFullContext "ceph1" cephSample.model_dump) "mon_hosts" =
      some (.vStr "10.0.0.1,10.0.0.2") ∧
    dictGet (cephFullContext "ceph1" cephSample.model_dump) "keyring" =
      some (.vStr "ceph.client.ceph1.keyring") :=
  ⟨by decide,
    (c7_ceph_summary_redaction "ceph1" cephSample.model_dump (by decide)).1
      "rbd_key" (by decide),
    (c7_ceph_summary_redaction "ceph1" cephSample.model_dump (by decide)).1
      "mon_hosts" (by decide),
    (c7_ceph_summary_redaction "ceph1" cephSample.model_dump
      (by decide)).2.2.2.1 (.vStr "10.0.0.1,10.0.0.2") (by decide) (by decide),
    (c7_ceph_summary_redaction "ceph1" cephSample.model_dump (by decide)).2.1⟩

/-- Counterexample to C7 as stated: the ceph full context of a concrete
backend does not contain the key `backend_name` (the claim asserts the
full context contains every hidden key, `backend_name` included), even
though it does contain the secret `rbd_key`. -/
theorem c7_counterexample :
    dictGet (cephFullContext "ceph1" cephSample.model_dump) "backend_name" =
      none ∧
    dictGet (cephFullContext "ceph1" cephSample.model_dump) "rbd_key" =
      some (.vStr "secretkey") := by
  exact ⟨by decide, by decide⟩

/-- Hitachi FC driver class (`context.py` line 205). -/
def hitachiFCDriver : String := "cinder.volume.drivers.hitachi.hbsd_fc.HBSDFCDriver"

/-- Hitachi iSCSI driver class (`context.py` line 207). -/
def hitachiISCSIDriver : String :=
  "cinder.volume.drivers.hitachi.hbsd_iscsi.HBSDISCSIDriver"

/-- `HitachiBackendContext.context` (`context.py` lines 201-214): lower
the protocol (default `FC`), pick the FC driver exactly for `fc` and the
iSCSI driver otherwise, then merge `backend_name` and `driver_class`
under the settings bag (`{**cfg}` wins on key collision). -/
def hitachiContext (backendName : String) (cfg : Dict) : Dict :=
  dictUpdate
    [("backend_name", PVal.vStr backendName),
     ("driver_class", PVal.vStr
       (if cfgProtocol cfg "FC" = "fc" then hitachiFCDriver
        else hitachiISCSIDriver))] cfg

/-- Pure iSCSI driver class (`context.py` line 250). -/
def pureISCSIDriver : String := "cinder.volume.drivers.pure.PureISCSIDriver"

/-- Pure FC driver class (`context.py` line 251). -/
def pureFCDriver : String := "cinder.volume.drivers.pure.PureFCDriver"

/-- Pure NVMe driver class (`context.py` line 252). -/
def pureNVMEDriver : String := "cinder.volume.drivers.pure.PureNVMEDriver"

/-- The pure driver mapping table with its `.get(protocol, table["fc"])`
fallback (`context.py` lines 249-255). -/
def pureDriverClass (protocol : String) : String :=
  if protocol = "iscsi" then pureISCSIDriver
  else if protocol = "fc" then pureFCDriver
  else if protocol = "nvme" then pureNVMEDriver
  else pureFCDriver

/-- `PureBackendContext.context` (`context.py` lines 244-262). -/
def pureContext (backendName : String) (cfg : Dict) : Dict :=
  dictUpdate
    [("backend_name", PVal.vStr backendName),
     ("driver_class", PVal.vStr (pureDriverClass (cfgProtocol cfg "fc")))] cfg

/-- Dell SC iSCSI driver class (`context.py` lines 295-297). -/
def dellscISCSIDriver : String :=
  "cinder.volume.drivers.dell_emc.sc.storagecenter_iscsi.SCISCSIDriver"

/-- Dell SC FC driver class (`context.py` line 298). -/
def dellscFCDriver : String :=
  "cinder.volume.drivers.dell_emc.sc.storagecenter_fc.SCFCDriver"

/-- The dellsc driver mapping table with its `.get(protocol,
table["fc"])` fallback (`context.py` lines 294-301). -/
def dellscDriverClass (protocol : String) : String :=
  if protocol = "iscsi" then dellscISCSIDriver
  else if protocol = "fc" then dellscFCDriver
  else dellscFCDriver

/-- `DellSCBackendContext.context` (`context.py` lines 289-308). -/
def dellscContext (backendName : String) (cfg : Dict) : Dict :=
  dictUpdate
    [("backend_name", PVal.vStr backendName),
     ("driver_class", PVal.vStr (dellscDriverClass (cfgProtocol cfg "fc")))] cfg

/-- C10: driver-class selection never fails.  For a settings bag whose
`protocol` is the string `p` (and which, like every `model_dump`, has no
`driver_class` key of its own), the pure and dellsc contexts map any
lowercased protocol outside their tables to the FC driver, the hitachi
context maps every lowercased protocol other than `fc` — unrecognized
values included — to the iSCSI driver, and all three contexts always
produce some driver class. -/
theorem c10_driver_class_fallback (backendName p : String) (cfg : Dict)
    (hproto : dictGet cfg "protocol" = some (.vStr p))
    (hnodrv : dictGet cfg "driver_class" = none) :
    (strLower p ∉ ["iscsi", "fc", "nvme"] →
      dictGet (pureContext backendName cfg) "driver_class" =
        some (.vStr pureFCDriver)) ∧
    (strLower p ∉ ["iscsi", "fc"] →
      dictGet (dellscContext backendName cfg) "driver_class" =
        some (.vStr dellscFCDriver)) ∧
    (strLower p ≠ "fc" →
      dictGet (hitachiContext backendName cfg) "driver_class" =
        some (.vStr hitachiISCSIDriver)) ∧
    (∃ d, dictGet (pureContext backendName cfg) "driver_class" =
      some (.vStr d)) ∧
    (∃ d, dictGet (dellscContext backendName cfg) "driver_class" =
      some (.vStr d)) ∧
    (∃ d, dictGet (hitachiContext backendName cfg) "driver_class" =
      some (.vStr d)) := by
  have hp : ∀ dflt, cfgProtocol cfg dflt = strLower p := by
    intro dflt
    simp [cfgProtocol, hproto]
  have hbase : ∀ w : PVal,
      dictGet [("backend_name", PVal.vStr backendName), ("driver_class", w)]
        "driver_class" = some w := fun w => rfl
  have hdrv : ∀ w : PVal,
      dictGet (dictUpdate
        [("backend_name", PVal.vStr backendName), ("driver_class", w)] cfg)
        "driver_class" = some w := by
    intro w
    rw [dictGet_dictUpdate_of_none _ _ _ hnodrv]
    exact hbase w
  refine ⟨?_, ?_, ?_, ?_, ?_, ?_⟩
  · intro hmem
    simp only [List.mem_cons, List.mem_singleton] at hmem
    push_neg at hmem
    unfold pureContext
    rw [hdrv, hp, pureDriverClass, if_neg hmem.1, if_neg hmem.2.1,
      if_neg hmem.2.2.1]
  · intro hmem
    simp only [List.mem_cons, List.mem_singleton] at hmem
    push_neg at hmem
    unfold dellscContext
    rw [hdrv, hp, dellscDriverClass, if_neg hmem.1, if_neg hmem.2.1]
  · intro hne
    unfold hitachiContext
    rw [hdrv, hp, if_neg hne]
  · exact ⟨_, by unfold pureContext; rw [hdrv]⟩
  · exact ⟨_, by unfold dellscContext; rw [hdrv]⟩
  · refine ⟨if cfgProtocol cfg "FC" = "fc" then hitachiFCDriver
      else hitachiISCSIDriver, ?_⟩
    unfold hitachiContext
    rw [hdrv]

/-- A settings bag with an unrecognized protocol string. -/
def cfgWeirdProtocol : Dict := [("protocol", PVal.vStr "SAS")]

/-- Witness for C10 at a concrete settings bag with the unrecognized
protocol `SAS`: pure and dellsc fall back to their FC drivers while
hitachi selects its iSCSI driver. -/
theorem c10_driver_class_fallback_witness :
    dictGet cfgWeirdProtocol "protocol" = some (.vStr "SAS") ∧
    dictGet cfgWeirdProtocol "driver_class" = none ∧
    strLower "SAS" ∉ ["iscsi", "fc", "nvme"] ∧
    dictGet (pureContext "pb" cfgWeirdProtocol) "driver_class" =
      some (.vStr pureFCDriver) ∧
    dictGet (dellscContext "db" cfgWeirdProtocol) "driver_class" =
      some (.vStr dellscFCDriver) ∧
    dictGet (hitachiContext "hb" cfgWeirdProtocol) "driver_class" =
      some (.vStr hitachiISCSIDriver) :=
  ⟨rfl, rfl, by decide,
    (c10_driver_class_fallback "pb" "SAS" cfgWeirdProtocol rfl rfl).1
      (by decide),
    (c10_driver_class_fallback "db" "SAS" cfgWeirdProtocol rfl rfl).2.1
      (by decide),
    (c10_driver_class_fallback "hb" "SAS" cfgWeirdProtocol rfl rfl).2.2.1
      (by decide)⟩

end CinderVolumeSnap
